import Mathlib

/-!
Verification of the trial/session state machine and scoring logic of the
RFT Fluency 3D n-back game (src/components/RFTFluency3D.tsx).

The TypeScript component keeps its session state in React state hooks and
mutable refs; here that state is collected into one explicit `GameState`
record and every logic function becomes a pure state transformer.
Randomness (`Math.random()` draws) is modelled by passing the drawn values
in explicitly; `Date.now()` is modelled by a `now : Nat` parameter, and the
`while` resampling loops become folds over the (possibly exhausted) list of
draws, returning `Option`.  JS numbers are modelled by `Int`/`Nat`/`Rat`
(all arithmetic in the component stays on small integers and percentages).
UI side effects (mesh updates, chart rendering, setTimeout clearing of
transient messages) are outside the model; the transient message *content*
is kept, as are the scheduled-callback bookkeeping flags.
-/

namespace RFT

/-- `type Attribute = "color" | "shape" | "size" | "position"` -/
inductive Attr
  | color
  | shape
  | size
  | position
deriving DecidableEq, Repr, Fintype

/-- `type ShapeType = "cube" | "sphere" | "tetrahedron"` -/
inductive ShapeType
  | cube
  | sphere
  | tetrahedron
deriving DecidableEq, Repr, Fintype

/-- `type ColorType = "red" | "blue" | "green"` -/
inductive ColorType
  | red
  | blue
  | green
deriving DecidableEq, Repr, Fintype

/-- `type SizeType = "small" | "medium" | "large"` -/
inductive SizeType
  | small
  | medium
  | large
deriving DecidableEq, Repr, Fintype

/-- `type PositionType = "left" | "center" | "right"` -/
inductive PositionType
  | left
  | center
  | right
deriving DecidableEq, Repr, Fintype

/-- `type PerspectiveType = "symbolic" | "spatial"` -/
inductive PerspectiveType
  | symbolic
  | spatial
deriving DecidableEq, Repr, Fintype

/-- `type SpatialRepType = "rotation" | "folding" | "cutout" | "instant"` -/
inductive SpatialRepType
  | rotation
  | folding
  | cutout
  | instant
deriving DecidableEq, Repr, Fintype

/-- `type ObserverPos = "me" | "opposite"` -/
inductive ObserverPos
  | me
  | opposite
deriving DecidableEq, Repr, Fintype

/-- `type SpatialMatchMode = "view" | "object"` -/
inductive SpatialMatchMode
  | view
  | object
deriving DecidableEq, Repr, Fintype

/-- `type UserAction = "match" | "non_match"` (`match` is a Lean keyword,
hence the `Act` suffix). -/
inductive UserAction
  | matchAct
  | nonMatchAct
deriving DecidableEq, Repr, Fintype

/-- `interface Stimulus` -/
structure Stimulus where
  color : ColorType
  backColor : ColorType
  netColors : List ColorType
  shape : ShapeType
  size : SizeType
  position : PositionType
  id : Nat
  stroopText : String
  stroopInk : ColorType
  observerPos : ObserverPos
deriving DecidableEq, Repr

instance : Inhabited Stimulus :=
  ⟨{ color := .red, backColor := .blue, netColors := [], shape := .cube,
     size := .medium, position := .center, id := 0, stroopText := "",
     stroopInk := .red, observerPos := .me }⟩

/-- `interface GameHistory` plus the `timestamp` field added in `saveHistory`. -/
structure HistoryRecord where
  date : String
  timestamp : Nat
  score : Int
  accuracy : ℚ
  maxNBack : Nat
deriving DecidableEq, Repr

/-- `const COLORS: ColorType[] = ["red", "blue", "green"]` -/
def COLORS : List ColorType := [.red, .blue, .green]

/-- `const SHAPES: ShapeType[] = ["cube", "sphere", "tetrahedron"]` -/
def SHAPES : List ShapeType := [.cube, .sphere, .tetrahedron]

/-- `const SIZES: SizeType[] = ["small", "medium", "large"]` -/
def SIZES : List SizeType := [.small, .medium, .large]

/-- `const POSITIONS: PositionType[] = ["left", "center", "right"]` -/
def POSITIONS : List PositionType := [.left, .center, .right]

/-- `const INTERVAL_MS = 3500` -/
def INTERVAL_MS : Nat := 3500

/-- `const BLOCK_SIZE = 20` -/
def BLOCK_SIZE : Nat := 20

/-- JS record lookup (`map[key]`), modelled on an association list:
`none` models `undefined`. -/
def recordLookup {α β : Type} [DecidableEq α] : List (α × β) → α → Option β
  | [], _ => none
  | (k, v) :: rest, a => if a = k then some v else recordLookup rest a

/-- The four per-attribute relabeling tables held in
`perspectiveMapping.current : Record<string, Record<string, string>>`.
JS records of string keys/values become typed association lists. -/
structure PerspMapping where
  colorT : List (ColorType × ColorType)
  shapeT : List (ShapeType × ShapeType)
  sizeT : List (SizeType × SizeType)
  posT : List (PositionType × PositionType)
deriving DecidableEq, Repr

/-- The value `getTransformedValue` returns (typed stand-in for its `any`:
a raw attribute value, the joined sorted color pair of the spatial
`object` strategy, or JS `undefined` from a missed record lookup).
`===` on these values is equality within one variant, which is how the
component only ever compares them (both sides come from the same rule and
configuration). -/
inductive TVal
  | colorV : ColorType → TVal
  | shapeV : ShapeType → TVal
  | sizeV : SizeType → TVal
  | posV : PositionType → TVal
  | pairV : ColorType × ColorType → TVal
  | undefV : TVal
deriving DecidableEq, Repr

/-- The component's session state: React `useState` hooks and mutable refs
relevant to the game logic, as one record.  `score` merges the `score`
state and `scoreRef` (kept in lock-step by the source).  `history` is
`historyRef` (`stimulusHistory` mirrors it).  `gameIntervalRunning` models
`gameIntervalRef.current !== undefined`; `pendingAdvanceDelay` models the
delay of the currently scheduled `turnTimerRef` callback.  `savedHistory`
models the `rft_fluency_3d_history` collection in localStorage. -/
structure GameState where
  activeRules : List Attr
  perspectiveMode : Bool
  perspectiveType : PerspectiveType
  spatialType : SpatialRepType
  spatialMatchMode : SpatialMatchMode
  showStroop : Bool
  distractorsEnabled : Bool
  controlSwapEnabled : Bool
  useTimer : Bool
  gameDurationSeconds : Nat
  isPlaying : Bool
  score : Int
  timeLeftSeconds : Int
  nBack : Nat
  autoProgress : Bool
  currentRule : Attr
  currentStimulus : Option Stimulus
  isSwapped : Bool
  history : List Stimulus
  feedbackMsg : String
  feedbackColor : String
  levelUpMsg : String
  blockTurnCount : Nat
  blockMistakes : Nat
  totalMistakes : Nat
  totalTurns : Nat
  hasResponded : Bool
  perspectiveMapping : Option PerspMapping
  lastStroopText : String
  gameIntervalRunning : Bool
  pendingAdvanceDelay : Option Nat
  savedHistory : List HistoryRecord
deriving DecidableEq, Repr

/-- `flashFeedback(msg, colorClass)` (the 800 ms self-clear is a UI timer,
not modelled). -/
def flashFeedback (msg colorClass : String) (st : GameState) : GameState :=
  { st with feedbackMsg := msg, feedbackColor := colorClass }

/-- The validity check of `generateCyclicMapping`'s retry loop: no index
`i` with `values[i] === shuffled[i]`. -/
def isValidShuffle {α : Type} [DecidableEq α] (values shuffled : List α) : Bool :=
  (values.zip shuffled).all fun p => decide (p.1 ≠ p.2)

/-- `generateCyclicMapping(values)`.  The loop body draws a fresh random
shuffle (`[...values].sort(() => Math.random() - 0.5)` — JS `sort` always
returns a permutation of its input) until the validity check passes;
the successive shuffle draws are passed in as `cands`, and exhausting
them models nontermination.  The returned record `{values[i]: shuffled[i]}`
is the association list `values.zip shuffled`. -/
def generateCyclicMapping {α : Type} [DecidableEq α] (values : List α) :
    List (List α) → Option (List (α × α))
  | [] => none
  | s :: rest =>
    if isValidShuffle values s then some (values.zip s)
    else generateCyclicMapping values rest

/-- `scramblePerspectiveRules()`: fills `perspectiveMapping.current` with
one cyclic mapping per attribute enumeration.  Each attribute gets its own
stream of shuffle draws. -/
def scramblePerspectiveRules (colorCands : List (List ColorType))
    (shapeCands : List (List ShapeType)) (sizeCands : List (List SizeType))
    (posCands : List (List PositionType)) : Option PerspMapping :=
  match generateCyclicMapping COLORS colorCands,
      generateCyclicMapping SHAPES shapeCands,
      generateCyclicMapping SIZES sizeCands,
      generateCyclicMapping POSITIONS posCands with
  | some c, some s, some z, some p => some ⟨c, s, z, p⟩
  | _, _, _, _ => none

/-- `stim[rule]` — dynamic attribute access, wrapped into `TVal`. -/
def rawVal (stim : Stimulus) : Attr → TVal
  | .color => .colorV stim.color
  | .shape => .shapeV stim.shape
  | .size => .sizeV stim.size
  | .position => .posV stim.position

/-- `map[rawValue]` in the symbolic branch of `getTransformedValue`:
look the raw value up in the attribute's relabeling table
(`undefined` — `.undefV` — if absent). -/
def mappedVal (pm : PerspMapping) (stim : Stimulus) : Attr → TVal
  | .color =>
    match recordLookup pm.colorT stim.color with
    | some v => .colorV v
    | none => .undefV
  | .shape =>
    match recordLookup pm.shapeT stim.shape with
    | some v => .shapeV v
    | none => .undefV
  | .size =>
    match recordLookup pm.sizeT stim.size with
    | some v => .sizeV v
    | none => .undefV
  | .position =>
    match recordLookup pm.posT stim.position with
    | some v => .posV v
    | none => .undefV

/-- The JS name of a color, for the lexicographic `Array.prototype.sort()`
in the spatial `object` color strategy. -/
def colorName : ColorType → String
  | .red => "red"
  | .blue => "blue"
  | .green => "green"

/-- JS `<` on strings: lexicographic comparison of the code-unit
sequences (these names are ASCII, so character codes suffice). -/
def charListLt : List Char → List Char → Bool
  | _, [] => false
  | [], _ :: _ => true
  | a :: as, b :: bs =>
    if a.toNat < b.toNat then true
    else if b.toNat < a.toNat then false
    else charListLt as bs

/-- JS string comparison used by the default `Array.prototype.sort()`. -/
def jsStringLt (a b : String) : Bool := charListLt a.toList b.toList

/-- `[stim.color, stim.backColor].sort()` on a two-element array: swap the
pair when the second name sorts before the first (JS default sort is
lexicographic on the strings). The subsequent `.join("-")` is injective
on these pairs, so the ordered pair itself is the composite key. -/
def sortedColorPair (a b : ColorType) : ColorType × ColorType :=
  if jsStringLt (colorName b) (colorName a) then (b, a) else (a, b)

/-- `getTransformedValue(stim, rule)` — reads `perspectiveMode`,
`perspectiveType`, `spatialMatchMode` and `perspectiveMapping` from the
component state, here `st`.  `PerspectiveType` has exactly the two values
`symbolic` and `spatial`, so the source's trailing `return stim[rule]`
(dead fallthrough) is absorbed by the two-way branch. -/
def getTransformedValue (st : GameState) (stim : Stimulus) (rule : Attr) : TVal :=
  if st.perspectiveMode = false then rawVal stim rule
  else if st.perspectiveType = .symbolic then
    if stim.observerPos = .me then rawVal stim rule
    else
      match st.perspectiveMapping with
      | none => rawVal stim rule
      | some pm => mappedVal pm stim rule
  else
    match rule with
    | .position =>
      if st.spatialMatchMode = .object then .posV stim.position
      else if stim.observerPos = .me then .posV stim.position
      else if stim.position = .left then .posV .right
      else if stim.position = .right then .posV .left
      else .posV .center
    | .color =>
      if st.spatialMatchMode = .object then .pairV (sortedColorPair stim.color stim.backColor)
      else if stim.observerPos = .me then .colorV stim.color
      else .colorV stim.backColor
    | r => rawVal stim r

/-- The `Math.random()` outcomes one call of `generateStimulus` consumes.
`backColorDraws` is the full sequence of back-color draws fed to the
resampling `while` loop (first draw included).  `stroopDraw`/`stroopRedraw`
are the two potential draws from `STROOP_WORDS`; `cutoutCoin` is
`Math.random() > 0.5`, `observerCoin` is `Math.random() > 0.3` (`me`). -/
structure StimRand where
  colorDraw : ColorType
  backColorDraws : List ColorType
  net0 : ColorType
  net1 : ColorType
  net2 : ColorType
  net3 : ColorType
  net4 : ColorType
  net5 : ColorType
  shapeDraw : ShapeType
  cutoutCoin : Bool
  sizeDraw : SizeType
  posDraw : PositionType
  stroopDraw : String
  stroopRedraw : String
  inkDraw : ColorType
  observerCoin : Bool
deriving DecidableEq, Repr

/-- The back-color resampling loop
`let backColor = draw; while (backColor === color) backColor = draw`:
first draw different from `c`, `none` when the draw list runs out
(nontermination). -/
def firstDifferent (c : ColorType) : List ColorType → Option ColorType
  | [] => none
  | d :: ds => if d = c then firstDifferent c ds else some d

/-- `generateStimulus()`.  Reads `activeRules`, `distractorsEnabled`,
`perspectiveMode`, `perspectiveType`, `spatialType` and the
`lastStroopText` ref from `st`; `now` is `Date.now()`.  The caller is
responsible for the `lastStroopText.current = stroopText` ref write
(see `nextTurn`). -/
def generateStimulus (st : GameState) (r : StimRand) (now : Nat) : Option Stimulus :=
  match firstDifferent r.colorDraw r.backColorDraws with
  | none => none
  | some backColor =>
    let color := r.colorDraw
    let netColors :=
      (([r.net0, r.net1, r.net2, r.net3, r.net4, r.net5].set 2 color).set 5 backColor)
    let shape0 :=
      if Attr.shape ∈ st.activeRules ∨ st.distractorsEnabled = true then r.shapeDraw
      else ShapeType.cube
    let shape :=
      if st.perspectiveMode = true ∧ st.perspectiveType = .spatial ∧ st.spatialType ≠ .cutout then
        ShapeType.cube
      else if st.perspectiveMode = true ∧ st.perspectiveType = .spatial ∧ st.spatialType = .cutout then
        (if r.cutoutCoin then ShapeType.cube else ShapeType.sphere)
      else shape0
    let size :=
      if Attr.size ∈ st.activeRules ∨ st.distractorsEnabled = true then r.sizeDraw
      else SizeType.medium
    let position :=
      if Attr.position ∈ st.activeRules ∨ st.distractorsEnabled = true then r.posDraw
      else PositionType.center
    let stroopText :=
      if r.stroopDraw = st.lastStroopText then r.stroopRedraw else r.stroopDraw
    some { color := color, backColor := backColor, netColors := netColors,
           shape := shape, size := size, position := position, id := now,
           stroopText := stroopText, stroopInk := r.inkDraw,
           observerPos := if r.observerCoin then .me else .opposite }

/-- `((blockTurnCount - blockMistakes) / blockTurnCount) * 100` (JS real
division, modelled on `ℚ`). -/
def blockAccuracy (turns mistakes : Nat) : ℚ :=
  (((turns : ℚ) - (mistakes : ℚ)) / (turns : ℚ)) * 100

/-- `checkProgression()`: the per-block adaptive-difficulty check
(the 3000 ms self-clear of `levelUpMsg` is a UI timer, not modelled). -/
def checkProgression (st : GameState) : GameState :=
  if st.autoProgress = false ∨ st.blockTurnCount < BLOCK_SIZE ∨ st.useTimer = true then st
  else
    let accuracy := blockAccuracy st.blockTurnCount st.blockMistakes
    let st1 :=
      if accuracy ≥ 80 then
        flashFeedback "LEVEL UP!" "text-accent"
          { st with nBack := st.nBack + 1,
                    levelUpMsg := "Awesome! Level Up: N=" ++ toString (st.nBack + 1) }
      else if accuracy < 50 ∧ st.nBack > 1 then
        flashFeedback "Level Down" "text-red-500"
          { st with nBack := st.nBack - 1,
                    levelUpMsg := "Too fast? Level Down: N=" ++ toString (st.nBack - 1) }
      else
        { st with levelUpMsg := "Maintaining Level: N=" ++ toString st.nBack ++
                    " (" ++ toString (round accuracy) ++ "%)" }
    { st1 with blockTurnCount := 0, blockMistakes := 0 }

/-- The `Math.random()` outcomes one call of `nextTurn` consumes:
`swapDraw` is `Math.random() < 0.35`, `ruleIndex` is
`Math.floor(Math.random() * activeRules.length)` (always `< length` when
the list is non-empty), and `stim` feeds `generateStimulus`. -/
structure TurnRand where
  swapDraw : Bool
  ruleIndex : Nat
  stim : StimRand
deriving DecidableEq, Repr

/-- The missed-target check opening `nextTurn(isReset)`. -/
def applyMissCheck (isReset : Bool) (st : GameState) : GameState :=
  if isReset = false ∧ st.history.length > st.nBack ∧ st.hasResponded = false then
    flashFeedback "Too Slow!" "text-red-500"
      { st with score := st.score - 5,
                totalMistakes := st.totalMistakes + 1,
                blockMistakes := st.blockMistakes + 1 }
  else st

/-- `nextTurn(isReset)`: miss check, progression check, control-swap
resolution, random rule pick, stimulus generation and append, once-only
countdown start, counter updates, and rescheduling of itself after
`INTERVAL_MS`.  `none` models the unreachable JS failure modes
(`activeRules[i]` undefined on an empty list; back-color resampling
forever).  `updateMesh`/`setStimulusHistory` are rendering effects. -/
def nextTurn (isReset : Bool) (r : TurnRand) (now : Nat) (st : GameState) :
    Option GameState :=
  let st1 := applyMissCheck isReset st
  let st2 := checkProgression st1
  let st3 := { st2 with isSwapped := if st2.controlSwapEnabled then r.swapDraw else false }
  match st3.activeRules.get? r.ruleIndex with
  | none => none
  | some newRule =>
    match generateStimulus st3 r.stim now with
    | none => none
    | some stim =>
      let newHistory := st3.history ++ [stim]
      some { st3 with
        currentRule := newRule,
        currentStimulus := some stim,
        history := newHistory,
        lastStroopText := stim.stroopText,
        gameIntervalRunning :=
          if st3.useTimer = true ∧ st3.gameIntervalRunning = false ∧
              newHistory.length > st3.nBack then true
          else st3.gameIntervalRunning,
        totalTurns := st3.totalTurns + 1,
        blockTurnCount := st3.blockTurnCount + 1,
        hasResponded := false,
        pendingAdvanceDelay := some INTERVAL_MS }

/-- `historyRef.current[historyRef.current.length - 1]` in `handleInput`
(the guard ensures the index is in range; `default` is unreachable). -/
def currentStimOf (st : GameState) : Stimulus :=
  st.history.getD (st.history.length - 1) default

/-- `historyRef.current[historyRef.current.length - 1 - nBack]` in
`handleInput` (in range under the guard). -/
def targetStimOf (st : GameState) : Stimulus :=
  st.history.getD (st.history.length - 1 - st.nBack) default

/-- `isMatch = val1 === val2` in `handleInput`. -/
def isMatchNow (st : GameState) : Bool :=
  decide (getTransformedValue st (currentStimOf st) st.currentRule =
    getTransformedValue st (targetStimOf st) st.currentRule)

/-- The `correct` flag of `handleInput`: `match` is correct iff the values
match, `non_match` iff they differ. -/
def responseCorrect (st : GameState) : UserAction → Bool
  | .matchAct => isMatchNow st
  | .nonMatchAct => !(isMatchNow st)

/-- `Math.max(0, Math.min(10, Math.floor((2000 - reactionTime) / 150)))`
(`Int.fdiv` is floor division, as JS `Math.floor` of a real quotient). -/
def speedBonus (reactionTime : Int) : Int :=
  max 0 (min 10 (Int.fdiv (2000 - reactionTime) 150))

/-- `const points = 10 + nBack * 5 + speedBonus` for a correct response. -/
def correctPoints (nBack : Nat) (reactionTime : Int) : Int :=
  10 + (nBack : Int) * 5 + speedBonus reactionTime

/-- `handleInput(action)`; `now` is `Date.now()` at response time. -/
def handleInput (now : Nat) (action : UserAction) (st : GameState) : GameState :=
  if st.isPlaying = false ∨ st.history.length ≤ st.nBack ∨ st.hasResponded = true then st
  else
    let st0 := { st with hasResponded := true }
    let currentStim := currentStimOf st
    if responseCorrect st action then
      let reactionTime : Int := (now : Int) - (currentStim.id : Int)
      let points := correctPoints st.nBack reactionTime
      let st1 := { st0 with score := st0.score + points }
      let st2 :=
        if speedBonus reactionTime > 5 then
          flashFeedback ("FAST! +" ++ toString (speedBonus reactionTime)) "text-green-500" st1
        else flashFeedback "Correct!" "text-green-500" st1
      { st2 with pendingAdvanceDelay := some 500 }
    else
      let st1 := { st0 with totalMistakes := st0.totalMistakes + 1,
                            blockMistakes := st0.blockMistakes + 1,
                            score := st0.score - 5 }
      let feedback :=
        match action with
        | .matchAct => "False Alarm!"
        | .nonMatchAct => "Miss!"
      let st2 :=
        flashFeedback (if feedback = "Miss!" then "Missed!" else "Incorrect!")
          "text-red-500" st1
      { st2 with pendingAdvanceDelay := some 500 }

/-- `stopGame()`: cancel both timers, leave play mode; nothing else. -/
def stopGame (st : GameState) : GameState :=
  flashFeedback "Stopped" "text-accent"
    { st with isPlaying := false, pendingAdvanceDelay := none,
              gameIntervalRunning := false, levelUpMsg := "" }

/-- The whole-session accuracy computed in `endGame`:
`totalTurns > 0 ? ((totalTurns - totalMistakes) / totalTurns) * 100 : 0`. -/
def sessionAccuracy (st : GameState) : ℚ :=
  if st.totalTurns > 0 then
    (((st.totalTurns : ℚ) - (st.totalMistakes : ℚ)) / (st.totalTurns : ℚ)) * 100
  else 0

/-- `saveHistory(accuracy, levelPlayed, finalScore)`: append one record to
the `rft_fluency_3d_history` collection.  `dateStr` is the formatted
short-date string, `now` is `Date.now()`. -/
def saveHistory (dateStr : String) (now : Nat) (accuracy : ℚ) (levelPlayed : Nat)
    (finalScore : Int) (st : GameState) : GameState :=
  { st with savedHistory := st.savedHistory ++
      [{ date := dateStr, timestamp := now, score := finalScore,
         accuracy := accuracy, maxNBack := levelPlayed }] }

/-- `endGame(timedOut)` (the 5000 ms self-clear of `levelUpMsg` is a UI
timer, not modelled). -/
def endGame (timedOut : Bool) (now : Nat) (dateStr : String) (st : GameState) :
    GameState :=
  if timedOut = true ∧ st.gameIntervalRunning = false then st
  else
    let st1 := { st with isPlaying := false, pendingAdvanceDelay := none,
                         gameIntervalRunning := false }
    let accuracy := sessionAccuracy st
    let levelPlayed := st.nBack
    let st2 :=
      if timedOut = true ∧ st1.autoProgress = true ∧ st1.totalTurns > 0 then
        if accuracy ≥ 80 then
          flashFeedback "LEVEL UP!" "text-green-500"
            { st1 with nBack := st1.nBack + 1,
                       levelUpMsg := "TIME UP! SUCCESS! Level Up to " ++ toString (st1.nBack + 1) }
        else if st1.nBack > 1 ∧ accuracy < 50 then
          flashFeedback "Level Down" "text-red-500"
            { st1 with nBack := st1.nBack - 1,
                       levelUpMsg := "TIME UP! Level Down to " ++ toString (st1.nBack - 1) }
        else
          flashFeedback "Time Expired" "text-accent"
            { st1 with levelUpMsg := "TIME UP! Accuracy: " ++ toString (round accuracy) ++ "%" }
      else
        { st1 with levelUpMsg := "GAME ENDED. Accuracy: " ++ toString (round accuracy) ++ "%" }
    if timedOut = true then saveHistory dateStr now accuracy levelPlayed st2.score st2
    else st2

/-- `toggleRule(rule)` (the mirrored localStorage write carries the same
list; `activeRules` is the authoritative copy). -/
def toggleRule (rule : Attr) (st : GameState) : GameState :=
  if st.perspectiveMode = true ∧ st.perspectiveType = .spatial ∧
      (rule = .shape ∨ rule = .size) then st
  else
    let newRules :=
      if rule ∈ st.activeRules then st.activeRules.filter fun r => decide (r ≠ rule)
      else st.activeRules ++ [rule]
    let newRules2 :=
      if newRules.length = 0 then
        (if st.activeRules.length > 0 then st.activeRules else [Attr.color])
      else newRules
    { st with activeRules := newRules2 }

/-! ### Concrete states for witnesses -/

/-- A playing state with the default configuration (rule `color`, no
perspective, no timer, no auto-progress), used to instantiate theorems. -/
def baseState : GameState :=
  { activeRules := [.color], perspectiveMode := false, perspectiveType := .symbolic,
    spatialType := .rotation, spatialMatchMode := .view, showStroop := true,
    distractorsEnabled := false, controlSwapEnabled := false, useTimer := false,
    gameDurationSeconds := 60, isPlaying := true, score := 0, timeLeftSeconds := 60,
    nBack := 1, autoProgress := false, currentRule := .color, currentStimulus := none,
    isSwapped := false, history := [], feedbackMsg := "", feedbackColor := "",
    levelUpMsg := "", blockTurnCount := 0, blockMistakes := 0, totalMistakes := 0,
    totalTurns := 0, hasResponded := false, perspectiveMapping := none,
    lastStroopText := "", gameIntervalRunning := false, pendingAdvanceDelay := none,
    savedHistory := [] }

/-- A concrete red-fronted stimulus. -/
def stimRed : Stimulus :=
  { color := .red, backColor := .blue, netColors := [.red, .red, .red, .red, .red, .blue],
    shape := .cube, size := .medium, position := .center, id := 0,
    stroopText := "RED", stroopInk := .red, observerPos := .me }

/-- `baseState` two trials in, both red, no response yet: a 1-back color
match is available. -/
def matchState : GameState :=
  { baseState with history := [stimRed, stimRed] }

/-! ### Helper lemmas -/

theorem firstDifferent_ne (c : ColorType) :
    ∀ (l : List ColorType) (d : ColorType), firstDifferent c l = some d → d ≠ c := by
  intro l
  induction l with
  | nil => intro d h; simp [firstDifferent] at h
  | cons x xs ih =>
    intro d h
    by_cases hx : x = c
    · rw [firstDifferent, if_pos hx] at h
      exact ih d h
    · rw [firstDifferent, if_neg hx] at h
      cases h
      exact hx

/-! ### C1 -/

/-- C1, counterexample: the base in the code is 10, so a correct response
at reaction time 0 ms with n-back = 1 scores 10 + 1·5 + 10 = 25 points,
not the 35 the claim states — here exhibited end to end through
`handleInput` on a concrete 1-back match with score 0. -/
theorem c1_counterexample :
    matchState.score = 0 ∧ matchState.nBack = 1 ∧
    responseCorrect matchState .matchAct = true ∧
    (currentStimOf matchState).id = 0 ∧
    (handleInput 0 .matchAct matchState).score = 25 ∧
    (handleInput 0 .matchAct matchState).score ≠ 35 ∧
    correctPoints 1 0 = 25 := by
  decide

/-- C1 (amended): for every correct response scored by `handleInput`, the
points awarded equal the base 10 plus 5 per n-back level plus the speed
bonus `clamp(0, 10, floor((2000 − reactionTimeMs) / 150))`
(`correctPoints`); at reaction time 0 ms the bonus is 10 and, at
n-back = 1, the total is 25 (not 35); at reaction time ≥ 2000 ms the
bonus is 0, and it is never negative. -/
theorem c1_scoring (st : GameState) (now : Nat) (a : UserAction)
    (hplay : st.isPlaying = true) (hlen : st.nBack < st.history.length)
    (hresp : st.hasResponded = false) (hcorr : responseCorrect st a = true) :
    (handleInput now a st).score =
      st.score + correctPoints st.nBack ((now : Int) - ((currentStimOf st).id : Int)) ∧
    speedBonus 0 = 10 ∧ correctPoints 1 0 = 25 ∧
    (∀ rt : Int, 2000 ≤ rt → speedBonus rt = 0) ∧
    (∀ rt : Int, 0 ≤ speedBonus rt) := by
  refine ⟨?_, by decide, by decide, ?_, ?_⟩
  · rw [handleInput.eq_def, if_neg (by rw [hplay, hresp]; simp; omega)]
    simp only [hcorr, if_true]
    split_ifs <;> simp [flashFeedback, correctPoints]
  · intro rt hrt
    have h1 : Int.fdiv (2000 - rt) 150 = (2000 - rt) / 150 :=
      Int.fdiv_eq_ediv _ (by omega)
    simp only [speedBonus, h1]
    omega
  · intro rt
    simp only [speedBonus]
    omega

/-- C1 witness: `c1_scoring` at the concrete match state, responding
`match` at time 0. -/
theorem c1_scoring_witness :
    (matchState.isPlaying = true ∧ matchState.nBack < matchState.history.length ∧
      matchState.hasResponded = false ∧ responseCorrect matchState .matchAct = true) ∧
    (handleInput 0 .matchAct matchState).score =
      matchState.score +
        correctPoints matchState.nBack ((0 : Int) - ((currentStimOf matchState).id : Int)) := by
  refine ⟨by decide, ?_⟩
  exact (c1_scoring matchState 0 .matchAct (by decide) (by decide) (by decide) (by decide)).1

/-! ### C3 -/

/-- C3: every stimulus produced by `generateStimulus` satisfies
`backColor ≠ color`, `netColors[2] = color` and `netColors[5] = backColor`. -/
theorem c3_stimulus_invariants (st : GameState) (r : StimRand) (now : Nat) (s : Stimulus)
    (h : generateStimulus st r now = some s) :
    s.backColor ≠ s.color ∧ s.netColors.get? 2 = some s.color ∧
      s.netColors.get? 5 = some s.backColor := by
  rw [generateStimulus] at h
  cases hfd : firstDifferent r.colorDraw r.backColorDraws with
  | none => rw [hfd] at h; cases h
  | some b =>
    rw [hfd] at h
    simp only [Option.some.injEq] at h
    subst h
    refine ⟨firstDifferent_ne _ _ _ hfd, ?_, ?_⟩ <;> rfl

/-- A concrete set of generator draws (first back-color draw collides with
the front color and is resampled). -/
def demoDraw : StimRand :=
  { colorDraw := .red, backColorDraws := [.red, .green], net0 := .blue, net1 := .blue,
    net2 := .blue, net3 := .blue, net4 := .blue, net5 := .blue, shapeDraw := .sphere,
    cutoutCoin := false, sizeDraw := .small, posDraw := .left, stroopDraw := "BLUE",
    stroopRedraw := "GREEN", inkDraw := .green, observerCoin := true }

/-- The stimulus `generateStimulus` produces from `demoDraw` in `baseState`. -/
def demoStimOut : Stimulus :=
  { color := .red, backColor := .green,
    netColors := [.blue, .blue, .red, .blue, .blue, .green], shape := .cube,
    size := .medium, position := .center, id := 7, stroopText := "BLUE",
    stroopInk := .green, observerPos := .me }

/-- C3 witness: `c3_stimulus_invariants` on a concrete draw. -/
theorem c3_stimulus_invariants_witness :
    (generateStimulus baseState demoDraw 7 = some demoStimOut) ∧
    demoStimOut.backColor ≠ demoStimOut.color ∧
    demoStimOut.netColors.get? 2 = some demoStimOut.color ∧
    demoStimOut.netColors.get? 5 = some demoStimOut.backColor := by
  refine ⟨by decide, ?_⟩
  exact c3_stimulus_invariants baseState demoDraw 7 demoStimOut (by decide)

/-! ### C7 -/

theorem sortedColorPair_comm : ∀ a b : ColorType, sortedColorPair a b = sortedColorPair b a := by
  decide

/-- C7: under the spatial perspective with the `object` matching strategy,
the transformed `color` value depends only on the unordered pair
`{color, backColor}`: stimuli whose color/backColor pairs agree up to
order transform identically, whatever their `observerPos`. -/
theorem c7_object_color_invariant (st : GameState) (s s' : Stimulus)
    (hm : st.perspectiveMode = true) (ht : st.perspectiveType = .spatial)
    (ho : st.spatialMatchMode = .object)
    (hpair : (s.color = s'.color ∧ s.backColor = s'.backColor) ∨
      (s.color = s'.backColor ∧ s.backColor = s'.color)) :
    getTransformedValue st s .color = getTransformedValue st s' .color := by
  simp only [getTransformedValue, hm, ht, ho, Bool.true_eq_false, if_false, reduceCtorEq,
    if_true]
  rcases hpair with ⟨h1, h2⟩ | ⟨h1, h2⟩
  · rw [h1, h2]
  · rw [h1, h2, sortedColorPair_comm]

/-- `baseState` with the spatial perspective and the `object` strategy on. -/
def spatialObjState : GameState :=
  { baseState with
      perspectiveMode := true
      perspectiveType := .spatial
      spatialMatchMode := .object }

/-- `baseState` with the spatial perspective and the `view` strategy on. -/
def spatialViewState : GameState :=
  { baseState with
      perspectiveMode := true
      perspectiveType := .spatial
      spatialMatchMode := .view }

/-- `stimRed` with the front/back colors swapped, seen from the opposite
side. -/
def stimSwapped : Stimulus :=
  { stimRed with
      color := .blue
      backColor := .red
      observerPos := .opposite }

/-- C7 witness: `c7_object_color_invariant` on two concrete stimuli whose
pairs are swapped and whose observers differ. -/
theorem c7_object_color_invariant_witness :
    getTransformedValue spatialObjState stimRed .color =
      getTransformedValue spatialObjState stimSwapped .color := by
  exact c7_object_color_invariant _ _ _ (by decide) (by decide) (by decide)
    (Or.inr (by constructor <;> decide))

/-! ### C8 -/

/-- C8: under the spatial perspective with rule `position`, the `object`
strategy returns the raw position for every stimulus; the `view` strategy
returns the raw position for `observerPos = me` and, for
`observerPos = opposite`, maps left to right, right to left and center to
center. -/
theorem c8_spatial_position (st : GameState) (s : Stimulus)
    (hm : st.perspectiveMode = true) (ht : st.perspectiveType = .spatial) :
    (st.spatialMatchMode = .object →
      getTransformedValue st s .position = .posV s.position) ∧
    (st.spatialMatchMode = .view → s.observerPos = .me →
      getTransformedValue st s .position = .posV s.position) ∧
    (st.spatialMatchMode = .view → s.observerPos = .opposite →
      getTransformedValue st s .position = .posV
        (match s.position with
         | .left => .right
         | .right => .left
         | .center => .center)) := by
  refine ⟨fun ho => ?_, fun hv hme => ?_, fun hv hop => ?_⟩
  · simp [getTransformedValue, hm, ht, ho]
  · simp [getTransformedValue, hm, ht, hv, hme]
  · cases hp : s.position <;>
      simp [getTransformedValue, hm, ht, hv, hop, hp]

/-- `stimRed` placed on the left, seen from the opposite side. -/
def stimLeftOpp : Stimulus :=
  { stimRed with
      position := .left
      observerPos := .opposite }

/-- C8 witness: `c8_spatial_position` for a left-positioned stimulus seen
from the opposite side under the `view` strategy. -/
theorem c8_spatial_position_witness :
    getTransformedValue spatialViewState stimLeftOpp .position = .posV .right := by
  exact (c8_spatial_position spatialViewState stimLeftOpp
    (by decide) (by decide)).2.2 (by decide) (by decide)

/-! ### C2 -/

/-- C2: with auto-progress on and the timer off, when the per-block trial
counter reaches 20 the controller computes block accuracy
`(trials − mistakes)/trials` and increments the n-back level at ≥ 80 %,
decrements it at < 50 % with n-back > 1, otherwise leaves it unchanged,
resetting both block counters in every case; when the timer is on or
auto-progress is off, `checkProgression` is the identity. -/
theorem c2_block_progression (st : GameState) :
    (st.autoProgress = true → st.useTimer = false → st.blockTurnCount = BLOCK_SIZE →
      ((blockAccuracy st.blockTurnCount st.blockMistakes ≥ 80 →
        (checkProgression st).nBack = st.nBack + 1) ∧
      (blockAccuracy st.blockTurnCount st.blockMistakes < 50 ∧ st.nBack > 1 →
        (checkProgression st).nBack = st.nBack - 1) ∧
      (¬ blockAccuracy st.blockTurnCount st.blockMistakes ≥ 80 →
        ¬ (blockAccuracy st.blockTurnCount st.blockMistakes < 50 ∧ st.nBack > 1) →
        (checkProgression st).nBack = st.nBack) ∧
      (checkProgression st).blockTurnCount = 0 ∧
      (checkProgression st).blockMistakes = 0)) ∧
    (st.autoProgress = false ∨ st.useTimer = true → checkProgression st = st) := by
  constructor
  · intro ha ht hc
    have hguard : ¬ (st.autoProgress = false ∨ st.blockTurnCount < BLOCK_SIZE ∨
        st.useTimer = true) := by
      rw [ha, ht, hc]; simp
    rw [checkProgression.eq_def, if_neg hguard]
    dsimp only
    refine ⟨fun h80 => ?_, fun h50 => ?_, fun hn80 hn50 => ?_, ?_, ?_⟩
    · rw [if_pos h80]; rfl
    · have h80 : ¬ blockAccuracy st.blockTurnCount st.blockMistakes ≥ 80 := by
        rcases h50 with ⟨hlt, _⟩
        intro hge; linarith
      rw [if_neg h80, if_pos h50]; rfl
    · rw [if_neg hn80, if_neg hn50]
    · rfl
    · rfl
  · intro h
    rw [checkProgression.eq_def, if_pos (by tauto)]

/-- A state one response away from finishing a perfect timerless block:
auto-progress on, 20 block trials, 2 block mistakes (90 % accuracy). -/
def blockDoneState : GameState :=
  { baseState with
      autoProgress := true
      useTimer := false
      blockTurnCount := 20
      blockMistakes := 2
      nBack := 3 }

/-- C2 witness: `c2_block_progression` on `blockDoneState` (90 % block
accuracy lifts n-back from 3 to 4 and clears the block counters), and on
the same state with the timer on (no adjustment). -/
theorem c2_block_progression_witness :
    ((checkProgression blockDoneState).nBack = 4 ∧
      (checkProgression blockDoneState).blockTurnCount = 0 ∧
      (checkProgression blockDoneState).blockMistakes = 0) ∧
    checkProgression { blockDoneState with useTimer := true } =
      { blockDoneState with useTimer := true } := by
  constructor
  · have h := (c2_block_progression blockDoneState).1 rfl rfl rfl
    have hacc : blockAccuracy blockDoneState.blockTurnCount blockDoneState.blockMistakes ≥ 80 := by
      show blockAccuracy 20 2 ≥ 80
      rw [blockAccuracy]
      norm_num
    exact ⟨h.1 hacc, h.2.2.2.1, h.2.2.2.2⟩
  · exact (c2_block_progression { blockDoneState with useTimer := true }).2 (Or.inr rfl)

/-! ### C10 -/

/-- C10: `toggleRule` never leaves the active-rules list empty when it was
non-empty before, and deselecting the only remaining active attribute
leaves that one-element list in place. -/
theorem c10_toggle_nonempty (st : GameState) (rule : Attr) :
    (st.activeRules ≠ [] → (toggleRule rule st).activeRules ≠ []) ∧
    (st.activeRules = [rule] → (toggleRule rule st).activeRules = [rule]) := by
  by_cases hguard : st.perspectiveMode = true ∧ st.perspectiveType = .spatial ∧
      (rule = .shape ∨ rule = .size)
  · rw [toggleRule.eq_def, if_pos hguard]
    exact ⟨fun h => h, fun h => h⟩
  · rw [toggleRule.eq_def, if_neg hguard]
    dsimp only
    constructor
    · intro hne
      by_cases hmem : rule ∈ st.activeRules
      · rw [if_pos hmem]
        by_cases hlen : (st.activeRules.filter fun r => decide (r ≠ rule)).length = 0
        · rw [if_pos hlen, if_pos (List.length_pos.mpr hne)]
          exact hne
        · rw [if_neg hlen]
          show st.activeRules.filter (fun r => decide (r ≠ rule)) ≠ []
          intro hcon
          rw [hcon] at hlen
          exact hlen rfl
      · rw [if_neg hmem]
        have hlen : ¬ ((st.activeRules ++ [rule]).length = 0) := by simp
        rw [if_neg hlen]
        simp
    · intro hone
      have hmem : rule ∈ st.activeRules := by
        rw [hone]; exact List.mem_singleton.mpr rfl
      rw [if_pos hmem]
      have hfilter : (st.activeRules.filter fun r => decide (r ≠ rule)) = [] := by
        rw [hone]; simp
      rw [hfilter]
      simp [hone]

/-- C10 witness: `c10_toggle_nonempty` deselecting `color` from the
one-element list of `baseState`. -/
theorem c10_toggle_nonempty_witness :
    (toggleRule .color baseState).activeRules = [.color] := by
  exact (c10_toggle_nonempty baseState .color).2 rfl

/-! ### C5 -/

/-- C5: manual `stopGame` never appends to the persisted history
collection; a timeout-driven `endGame` with the countdown running and at
least one trial played appends exactly one record whose n-back field is
the level as it was during play (captured before the end-of-session
adjustment to the live level). -/
theorem c5_history_recording (st : GameState) :
    (stopGame st).savedHistory = st.savedHistory ∧
    (∀ (now : Nat) (d : String), st.gameIntervalRunning = true → 1 ≤ st.totalTurns →
      ∃ rec : HistoryRecord,
        (endGame true now d st).savedHistory = st.savedHistory ++ [rec] ∧
        rec.maxNBack = st.nBack) := by
  constructor
  · rfl
  · intro now d hrun _
    rw [endGame.eq_def, if_neg (by rw [hrun]; simp)]
    simp only [saveHistory]
    split_ifs <;> exact ⟨_, rfl, rfl⟩

/-- A timed state mid-session: countdown running, three trials played, one
mistake, score 40, n-back 2. -/
def timedState : GameState :=
  { baseState with
      useTimer := true
      autoProgress := true
      gameIntervalRunning := true
      totalTurns := 3
      totalMistakes := 1
      score := 40
      nBack := 2 }

/-- C5 witness: `c5_history_recording` on `timedState`: stopping appends
nothing; timing out appends one record carrying n-back 2, the level played
(the live level is adjusted only afterwards). -/
theorem c5_history_recording_witness :
    (stopGame timedState).savedHistory = timedState.savedHistory ∧
    ∃ rec : HistoryRecord,
      (endGame true 99 "1/1 0:00" timedState).savedHistory =
        timedState.savedHistory ++ [rec] ∧ rec.maxNBack = 2 := by
  refine ⟨(c5_history_recording timedState).1, ?_⟩
  exact (c5_history_recording timedState).2 99 "1/1 0:00" rfl (by decide)

/-! ### C6 -/

/-- C6: `handleInput` is a no-op whenever the session is not running, the
history length is ≤ n-back, or a response was already recorded; in
particular a second call in the same trial window never changes the state
a first call produced. -/
theorem c6_respond_idempotent (st : GameState) (now : Nat) (a : UserAction) :
    ((st.isPlaying = false ∨ st.history.length ≤ st.nBack ∨ st.hasResponded = true) →
      handleInput now a st = st) ∧
    (∀ (now2 : Nat) (a2 : UserAction),
      handleInput now2 a2 (handleInput now a st) = handleInput now a st) := by
  have hnoop : ∀ (n : Nat) (b : UserAction) (s : GameState),
      (s.isPlaying = false ∨ s.history.length ≤ s.nBack ∨ s.hasResponded = true) →
      handleInput n b s = s := by
    intro n b s h
    rw [handleInput.eq_def, if_pos h]
  refine ⟨hnoop now a st, ?_⟩
  intro now2 a2
  by_cases h : st.isPlaying = false ∨ st.history.length ≤ st.nBack ∨ st.hasResponded = true
  · rw [hnoop now a st h, hnoop now2 a2 st h]
  · apply hnoop
    right; right
    rw [handleInput.eq_def, if_neg h]
    dsimp only
    split_ifs <;> rfl

/-- `matchState` after a response has already been recorded this trial. -/
def respondedState : GameState :=
  { matchState with hasResponded := true }

/-- C6 witness: `c6_respond_idempotent` on a state that has already
recorded a response: the call leaves the state untouched. -/
theorem c6_respond_idempotent_witness :
    (respondedState.isPlaying = false ∨
      respondedState.history.length ≤ respondedState.nBack ∨
      respondedState.hasResponded = true) ∧
    handleInput 5 .matchAct respondedState = respondedState := by
  refine ⟨by decide, ?_⟩
  exact (c6_respond_idempotent respondedState 5 .matchAct).1 (by decide)

/-! ### C9 -/

theorem checkProgression_score (st : GameState) :
    (checkProgression st).score = st.score := by
  rw [checkProgression.eq_def]
  dsimp only
  split_ifs <;> rfl

theorem checkProgression_totalMistakes (st : GameState) :
    (checkProgression st).totalMistakes = st.totalMistakes := by
  rw [checkProgression.eq_def]
  dsimp only
  split_ifs <;> rfl

theorem applyMissCheck_pos (isReset : Bool) (st : GameState)
    (h : isReset = false ∧ st.history.length > st.nBack ∧ st.hasResponded = false) :
    (applyMissCheck isReset st).score = st.score - 5 ∧
    (applyMissCheck isReset st).totalMistakes = st.totalMistakes + 1 ∧
    (applyMissCheck isReset st).blockMistakes = st.blockMistakes + 1 := by
  rw [applyMissCheck.eq_def, if_pos h]
  exact ⟨rfl, rfl, rfl⟩

theorem applyMissCheck_neg (isReset : Bool) (st : GameState)
    (h : ¬ (isReset = false ∧ st.history.length > st.nBack ∧ st.hasResponded = false)) :
    applyMissCheck isReset st = st := by
  rw [applyMissCheck.eq_def, if_neg h]

/-- C9: any incorrect response and any miss changes the score by exactly
−5 and bumps both mistake counters; `nextTurn` detects a miss exactly when
the call is not the initial one, the history is longer than n-back, and no
response was recorded; the score can go negative. -/
theorem c9_flat_penalties :
    (∀ (isReset : Bool) (r : TurnRand) (now : Nat) (st st' : GameState),
      nextTurn isReset r now st = some st' →
      ((isReset = false ∧ st.history.length > st.nBack ∧ st.hasResponded = false) →
        st'.score = st.score - 5 ∧ st'.totalMistakes = st.totalMistakes + 1) ∧
      (¬ (isReset = false ∧ st.history.length > st.nBack ∧ st.hasResponded = false) →
        st'.score = st.score ∧ st'.totalMistakes = st.totalMistakes)) ∧
    (∀ (isReset : Bool) (st : GameState),
      (isReset = false ∧ st.history.length > st.nBack ∧ st.hasResponded = false) →
      (applyMissCheck isReset st).blockMistakes = st.blockMistakes + 1) ∧
    (∀ (now : Nat) (a : UserAction) (st : GameState),
      st.isPlaying = true → st.nBack < st.history.length → st.hasResponded = false →
      responseCorrect st a = false →
      (handleInput now a st).score = st.score - 5 ∧
      (handleInput now a st).totalMistakes = st.totalMistakes + 1 ∧
      (handleInput now a st).blockMistakes = st.blockMistakes + 1) ∧
    (∃ (st : GameState) (r : TurnRand) (now : Nat) (st' : GameState),
      nextTurn false r now st = some st' ∧ st'.score < 0) := by
  have hmain : ∀ (isReset : Bool) (r : TurnRand) (now : Nat) (st st' : GameState),
      nextTurn isReset r now st = some st' →
      st'.score = (applyMissCheck isReset st).score ∧
      st'.totalMistakes = (applyMissCheck isReset st).totalMistakes := by
    intro isReset r now st st' h
    rw [nextTurn.eq_def] at h
    dsimp only at h
    split at h
    · exact absurd h (by simp)
    · split at h
      · exact absurd h (by simp)
      · injection h with h
        subst h
        exact ⟨checkProgression_score _, checkProgression_totalMistakes _⟩
  refine ⟨?_, ?_, ?_, ?_⟩
  · intro isReset r now st st' h
    obtain ⟨hsc, htm⟩ := hmain isReset r now st st' h
    constructor
    · intro hmiss
      obtain ⟨h1, h2, _⟩ := applyMissCheck_pos isReset st hmiss
      exact ⟨hsc.trans h1, htm.trans h2⟩
    · intro hnomiss
      rw [applyMissCheck_neg isReset st hnomiss] at hsc htm
      exact ⟨hsc, htm⟩
  · intro isReset st hmiss
    exact (applyMissCheck_pos isReset st hmiss).2.2
  · intro now a st hp hl hr hc
    rw [handleInput.eq_def, if_neg (by rw [hp, hr]; simp; omega)]
    dsimp only
    simp only [hc, Bool.false_eq_true, if_false]
    exact ⟨rfl, rfl, rfl⟩
  · exact ⟨matchState, ⟨false, 0, demoDraw⟩, 9, _, rfl, by decide⟩

/-- C9 witness: `c9_flat_penalties` on an incorrect response (`non_match`
on an actual 1-back color match): −5 and both mistake counters bumped. -/
theorem c9_flat_penalties_witness :
    (matchState.isPlaying = true ∧ matchState.nBack < matchState.history.length ∧
      matchState.hasResponded = false ∧ responseCorrect matchState .nonMatchAct = false) ∧
    (handleInput 3 .nonMatchAct matchState).score = matchState.score - 5 ∧
    (handleInput 3 .nonMatchAct matchState).totalMistakes = matchState.totalMistakes + 1 ∧
    (handleInput 3 .nonMatchAct matchState).blockMistakes = matchState.blockMistakes + 1 := by
  refine ⟨by decide, ?_⟩
  exact c9_flat_penalties.2.2.1 3 .nonMatchAct matchState
    (by decide) (by decide) (by decide) (by decide)

/-! ### C4 -/

theorem isValidShuffle_get {α : Type} [DecidableEq α] :
    ∀ (values s : List α), isValidShuffle values s = true →
      ∀ (i : Nat) (h1 : i < values.length) (h2 : i < s.length),
        values.get ⟨i, h1⟩ ≠ s.get ⟨i, h2⟩ := by
  intro values
  induction values with
  | nil => intro s _ i h1; exact absurd h1 (by simp)
  | cons a vs ih =>
    intro s hvalid i h1 h2
    cases s with
    | nil => exact absurd h2 (by simp)
    | cons b ss =>
      rw [isValidShuffle, List.zip_cons_cons, List.all_cons, Bool.and_eq_true] at hvalid
      cases i with
      | zero =>
        simpa using of_decide_eq_true hvalid.1
      | succ j =>
        exact ih ss hvalid.2 j (by simpa using h1) (by simpa using h2)

theorem recordLookup_zip_get {α : Type} [DecidableEq α] :
    ∀ (values s : List α), values.Nodup →
      ∀ (i : Nat) (h1 : i < values.length) (h2 : i < s.length),
        recordLookup (values.zip s) (values.get ⟨i, h1⟩) = some (s.get ⟨i, h2⟩) := by
  intro values
  induction values with
  | nil => intro s _ i h1; exact absurd h1 (by simp)
  | cons a vs ih =>
    intro s hnd i h1 h2
    cases s with
    | nil => exact absurd h2 (by simp)
    | cons b ss =>
      rw [List.zip_cons_cons]
      cases i with
      | zero => simp [recordLookup]
      | succ j =>
        have hj1 : j < vs.length := by simpa using h1
        have hj2 : j < ss.length := by simpa using h2
        have hne : (vs.get ⟨j, hj1⟩ : α) ≠ a := by
          intro hcon
          exact (List.nodup_cons.mp hnd).1 (hcon ▸ List.get_mem vs j hj1)
        show recordLookup ((a, b) :: vs.zip ss) (vs.get ⟨j, hj1⟩) = _
        rw [recordLookup, if_neg hne]
        exact ih ss (List.nodup_cons.mp hnd).2 j hj1 hj2

theorem recordLookup_zip_exists {α : Type} [DecidableEq α] :
    ∀ (values s : List α) (v w : α), recordLookup (values.zip s) v = some w →
      ∃ (i : Nat) (h1 : i < values.length) (h2 : i < s.length),
        values.get ⟨i, h1⟩ = v ∧ s.get ⟨i, h2⟩ = w := by
  intro values
  induction values with
  | nil => intro s v w h; cases h
  | cons a vs ih =>
    intro s v w h
    cases s with
    | nil => cases h
    | cons b ss =>
      rw [List.zip_cons_cons, recordLookup] at h
      by_cases hv : v = a
      · rw [if_pos hv] at h
        injection h with h
        exact ⟨0, by simp, by simp, hv.symm, h⟩
      · rw [if_neg hv] at h
        obtain ⟨i, h1, h2, hvi, hwi⟩ := ih ss v w h
        exact ⟨i + 1, by simpa using h1, by simpa using h2, hvi, hwi⟩

theorem generateCyclicMapping_spec {α : Type} [DecidableEq α] :
    ∀ (values : List α) (cands : List (List α)) (m : List (α × α)),
      generateCyclicMapping values cands = some m →
      ∃ s, s ∈ cands ∧ isValidShuffle values s = true ∧ m = values.zip s := by
  intro values cands
  induction cands with
  | nil => intro m h; cases h
  | cons c cs ih =>
    intro m h
    rw [generateCyclicMapping] at h
    by_cases hv : isValidShuffle values c = true
    · rw [if_pos hv] at h
      injection h with h
      exact ⟨c, List.mem_cons_self c cs, hv, h.symm⟩
    · rw [if_neg hv] at h
      obtain ⟨s, hs, hvalid, hm⟩ := ih m h
      exact ⟨s, List.mem_cons_of_mem c hs, hvalid, hm⟩

/-- C4: every relabeling table the retry loop of `generateCyclicMapping`
accepts (for a duplicate-free enumeration `values`, with every candidate
shuffle a permutation of `values`, as JS `sort` guarantees) is a bijection
of the enumeration with no fixed points: lookup is total on `values` with
values inside `values`, injective, fixed-point-free, and surjective onto
`values`.  `scramblePerspectiveRules` instantiates this at the four
attribute enumerations, which are all duplicate-free. -/
theorem c4_cyclic_mapping_bijection {α : Type} [DecidableEq α]
    (values : List α) (cands : List (List α)) (m : List (α × α))
    (hnd : values.Nodup) (hperm : ∀ s ∈ cands, s.Perm values)
    (hgen : generateCyclicMapping values cands = some m) :
    (∀ v ∈ values, ∃ w, recordLookup m v = some w ∧ w ∈ values ∧ w ≠ v) ∧
    (∀ v1 v2 w, recordLookup m v1 = some w → recordLookup m v2 = some w → v1 = v2) ∧
    (∀ w ∈ values, ∃ v, v ∈ values ∧ recordLookup m v = some w) := by
  obtain ⟨s, hs, hvalid, rfl⟩ := generateCyclicMapping_spec values cands m hgen
  have hp : s.Perm values := hperm s hs
  have hlen : s.length = values.length := hp.length_eq
  have hsnd : s.Nodup := hp.nodup_iff.mpr hnd
  refine ⟨?_, ?_, ?_⟩
  · intro v hv
    obtain ⟨⟨i, hi⟩, hgv⟩ := List.mem_iff_get.mp hv
    have h2 : i < s.length := by omega
    refine ⟨s.get ⟨i, h2⟩, ?_, ?_, ?_⟩
    · rw [← hgv]
      exact recordLookup_zip_get values s hnd i hi h2
    · exact hp.mem_iff.mp (List.get_mem s i h2)
    · rw [← hgv]
      exact (isValidShuffle_get values s hvalid i hi h2).symm
  · intro v1 v2 w hl1 hl2
    obtain ⟨i, hi1, hi2, hvi, hwi⟩ := recordLookup_zip_exists values s v1 w hl1
    obtain ⟨j, hj1, hj2, hvj, hwj⟩ := recordLookup_zip_exists values s v2 w hl2
    have hsij : s.get ⟨i, hi2⟩ = s.get ⟨j, hj2⟩ := by rw [hwi, hwj]
    have hij : i = j := by
      have := hsnd.get_inj_iff.mp hsij
      simpa using this
    subst hij
    rw [← hvi, ← hvj]
  · intro w hw
    obtain ⟨⟨i, hi⟩, hgw⟩ := List.mem_iff_get.mp (hp.mem_iff.mpr hw)
    have h1 : i < values.length := by omega
    refine ⟨values.get ⟨i, h1⟩, List.get_mem values i h1, ?_⟩
    rw [recordLookup_zip_get values s hnd i h1 hi, hgw]

/-- The single candidate shuffle of the witness session. -/
def demoShuffles : List (List ColorType) := [[.blue, .green, .red]]

/-- The color relabeling table the witness session produces. -/
def demoTable : List (ColorType × ColorType) :=
  [(.red, .blue), (.blue, .green), (.green, .red)]

/-- C4 witness: `c4_cyclic_mapping_bijection` on the color enumeration
with a concrete valid shuffle. -/
theorem c4_cyclic_mapping_bijection_witness :
    (COLORS.Nodup ∧ (∀ s ∈ demoShuffles, s.Perm COLORS) ∧
      generateCyclicMapping COLORS demoShuffles = some demoTable) ∧
    (∀ v ∈ COLORS, ∃ w, recordLookup demoTable v = some w ∧ w ∈ COLORS ∧ w ≠ v) ∧
    (∀ v1 v2 w, recordLookup demoTable v1 = some w →
      recordLookup demoTable v2 = some w → v1 = v2) ∧
    (∀ w ∈ COLORS, ∃ v, v ∈ COLORS ∧ recordLookup demoTable v = some w) := by
  refine ⟨⟨by decide, by decide, by decide⟩, ?_⟩
  exact c4_cyclic_mapping_bijection COLORS demoShuffles demoTable
    (by decide) (by decide) (by decide)

end RFT
